import Mathlib

/-!
Verification of the operation-dispatch core of MSBWizard
(`src/common/super/manipulator.py`, class `Manipulator`).

Python values that can appear in requests are modelled by the inductive
type `Value`: dictionaries become insertion-ordered association lists
(mirroring Python dict semantics), application objects become opaque
tagged values carrying an identity and a concrete-type tag, and the
scalar types used by the dispatcher are embedded directly.  Python
exceptions are modelled by `Except PyExc`, where `PyExc` carries the
exception class name and its message (Python `str(e)` on the exception
classes used here yields the message).
-/

/-- A Python runtime value, as far as the dispatcher inspects values:
`None`, booleans, integers, strings, dictionaries (insertion-ordered
association lists, as in Python), and opaque application objects with
an identity `id` and a concrete-type tag `ty`. -/
inductive Value where
  | none : Value
  | bool (b : Bool) : Value
  | int (n : Int) : Value
  | str (s : String) : Value
  | dict (entries : List (String × Value)) : Value
  | obj (id : Nat) (ty : Nat) : Value

/-- Python truthiness (`bool(v)`) for the modelled values: `None`,
`False`, `0`, the empty string and the empty dict are falsy;
application objects are truthy. -/
def truthy : Value → Bool
  | Value.none => false
  | Value.bool b => b
  | Value.int n => n != 0
  | Value.str s => s != ""
  | Value.dict entries => !entries.isEmpty
  | Value.obj _ _ => true

/-- `isinstance(v, dict)`. -/
def Value.isDict : Value → Bool
  | Value.dict _ => true
  | _ => false

/-- `v is None`. -/
def Value.isNone : Value → Bool
  | Value.none => true
  | _ => false

/-- `isinstance(v, str)`. -/
def Value.isStr : Value → Bool
  | Value.str _ => true
  | _ => false

/-- The concrete-type tag of a value (`type(v)`).  Built-in types get
the fixed tags 0-4; an application object carries its own tag. -/
def typeOf : Value → Nat
  | Value.none => 0
  | Value.bool _ => 1
  | Value.int _ => 2
  | Value.str _ => 3
  | Value.dict _ => 4
  | Value.obj _ ty => ty

/-- `type(v).__name__` for the built-in tags; application classes are
given model names `T5`, `T6`, ... since only their distinctness is
observable here. -/
def typeName (t : Nat) : String :=
  match t with
  | 0 => "NoneType"
  | 1 => "bool"
  | 2 => "int"
  | 3 => "str"
  | 4 => "dict"
  | t => "T" ++ toString t

/-- First-occurrence association-list lookup (Python dict lookup; the
lists built by the model have unique keys, as Python dicts do). -/
def alistLookup {α β : Type} [DecidableEq α] : List (α × β) → α → Option β
  | [], _ => Option.none
  | (k', v) :: rest, k => if k' = k then some v else alistLookup rest k

/-- Python `d.get(k)`: the stored value, or `None` when absent. -/
def alistGet (entries : List (String × Value)) (k : String) : Value :=
  (alistLookup entries k).getD Value.none

/-- Python `d.get(k, default)`. -/
def alistGetD (entries : List (String × Value)) (k : String) (default : Value) : Value :=
  (alistLookup entries k).getD default

/-- Python `k in d`. -/
def hasKey {α β : Type} [DecidableEq α] (entries : List (α × β)) (k : α) : Bool :=
  (alistLookup entries k).isSome

/-- Python dict assignment `d[k] = v`: overwrite in place when the key
exists (keeping its position, as Python dicts do), else append. -/
def insertA {α β : Type} [DecidableEq α] : List (α × β) → α → β → List (α × β)
  | [], k, v => [(k, v)]
  | (k', v') :: rest, k, v =>
    if k' = k then (k', v) :: rest else (k', v') :: insertA rest k v

/-- A Python exception: the exception class name and its message
(`str(e)` yields the message for the classes used by the dispatcher). -/
structure PyExc where
  ty : String
  msg : String
deriving DecidableEq

/-- The result object a handler's `execute` returns on success, read by
`_process_single_request` through the keys `status`, `object`, `method`,
`result` and `error`. -/
structure SuperResult where
  status : Value
  object : Value
  method : Value
  result : Value
  error : Value

/-- The keyword-argument payload `execute_args` handed to a handler's
`execute`: always the resolved object, optionally a copied `attributes`
entry list and a `method` value (`manipulator.py` lines 338-345). -/
structure ExecuteArgs where
  obj : Value
  attributes : Option (List (String × Value))
  method : Option Value

/-- A callable stored in the method registry: either a method bound to
a specific handler instance (identified by the instance id, since bound
methods of distinct instances are distinct callables in Python), or a
plain function of a class collected from a base class. -/
inductive Method where
  | bound (instId : Nat) (name : String) : Method
  | classFn (cls : Nat) (name : String) : Method
deriving DecidableEq

/-- A handler ("super") instance: an identity, a concrete-type tag, the
`hasattr(inst, "execute")` fact, the public method names `inspect`
discovers on it, and the behaviour of `execute` (raising is modelled by
`Except.error`). -/
structure Instance where
  id : Nat
  ty : Nat
  hasExecute : Bool
  methodNames : List String
  exec : ExecuteArgs → Except PyExc SuperResult

/-- The public bound methods of a handler instance, as collected by
`inspect.getmembers(instance, predicate=inspect.ismethod)` in
`register_operation` and `_get_method_registry`. -/
def methodsOf (inst : Instance) : List (String × Method) :=
  inst.methodNames.map fun n => (n, Method.bound inst.id n)

/-- The public methods of a class with tag `cls`, as collected by the
base-class loop of `_get_method_registry` (the `dir`-based special case
for `list`/`dict`/`set` and the generic `inspect.getmembers` branch both
produce the class's public callables, here supplied by the environment
`env`). -/
def classMethodsOf (env : Nat → List String) (cls : Nat) : List (String × Method) :=
  (env cls).map fun n => (n, Method.classFn cls n)

/-- The method registry `_registry`: concrete-type tag to public
methods, insertion-ordered like the Python dict. -/
abbrev Registry := List (Nat × List (String × Method))

/-- The first loop of `_get_method_registry` (lines 169-181): one
registry entry per registered handler's concrete type, keyed by type,
later handlers of the same type overwriting earlier ones. -/
def opsRegistry (ops : List (String × Instance)) : Registry :=
  ops.foldl (fun r kv => insertA r kv.2.ty (methodsOf kv.2)) []

/-- The second loop of `_get_method_registry` (lines 183-205): add each
base class's public methods, skipping classes with no discoverable
methods (a non-fatal condition). -/
def addBaseClasses (env : Nat → List String) (r : Registry) (bases : List Nat) : Registry :=
  bases.foldl
    (fun r cls =>
      let ms := classMethodsOf env cls
      if ms.isEmpty then r else insertA r cls ms)
    r

/-- `_get_method_registry`: rebuild the registry from the current
operations and base classes.  The `lru_cache` on the Python method is
cleared (`cache_clear`) before every call except the first, so at every
call site the cached function computes exactly this rebuild. -/
def buildRegistry (ops : List (String × Instance)) (bases : List Nat)
    (env : Nat → List String) : Registry :=
  addBaseClasses env (opsRegistry ops) bases

/-- The mutable state of a `Manipulator` instance: the managing object
(`Value.none` models Python `None`), the strict-type-check flag, the
base classes (type tags), the operations table, the method registry,
and the fixed introspection environment giving each class's public
method names. -/
structure RState where
  managing : Value
  strict : Bool
  baseClasses : List Nat
  operations : List (String × Instance)
  registry : Registry
  classMethods : Nat → List String

/-- `Manipulator.__init__`: record the managing object, append its type
to the base classes when new, take the given operations, and build the
registry. -/
def mkManipulator (managingObject : Value) (baseClasses : List Nat)
    (operations : List (String × Instance)) (strictTypeCheck : Bool)
    (env : Nat → List String) : RState :=
  let bases :=
    if !managingObject.isNone && !(baseClasses.contains (typeOf managingObject)) then
      baseClasses ++ [typeOf managingObject]
    else baseClasses
  { managing := managingObject
    strict := strictTypeCheck
    baseClasses := bases
    operations := operations
    registry := buildRegistry operations bases env
    classMethods := env }

/-- `update_registry`: optionally clear the operations, extend the base
classes with the genuinely new additional classes, and rebuild the
registry (after `cache_clear`). -/
def updateRegistry (s : RState) (additionalClasses : List Nat)
    (clearOperations : Bool) : RState :=
  let ops := if clearOperations then [] else s.operations
  let bases :=
    if additionalClasses.isEmpty then s.baseClasses
    else s.baseClasses ++ additionalClasses.filter fun c => !(s.baseClasses.contains c)
  { s with operations := ops, baseClasses := bases
           registry := buildRegistry ops bases s.classMethods }

/-- `set_managing_object`: replace the managing object; when its type
is new, append it to the base classes and rebuild the registry via
`update_registry`. -/
def setManagingObject (s : RState) (obj : Value) : RState :=
  if !obj.isNone && !(s.baseClasses.contains (typeOf obj)) then
    let bases := s.baseClasses ++ [typeOf obj]
    { s with managing := obj, baseClasses := bases
             registry := buildRegistry s.operations bases s.classMethods }
  else { s with managing := obj }

/-- `register_operation` (lines 129-156): validate the name and the
presence of `execute` (raising `ValueError` before any state change),
then bind the operation and add a registry entry for the handler's
concrete type only when that type has no entry yet.  (The Python code
also stamps `super_instance._operation = operation` on the handler; that
attribute is never read by the dispatcher and is not part of the
router's state.) -/
def registerOperation (s : RState) (operation : String) (inst : Instance) :
    Except PyExc Unit × RState :=
  if operation = "" then
    (Except.error ⟨"ValueError", "Operation name must be a non-empty string"⟩, s)
  else if !inst.hasExecute then
    (Except.error ⟨"ValueError",
      "Super-instance for \x27" ++ operation ++ "\x27 must have \x27execute\x27 method"⟩, s)
  else
    let ops := insertA s.operations operation inst
    let reg :=
      if hasKey s.registry inst.ty then s.registry
      else s.registry ++ [(inst.ty, methodsOf inst)]
    (Except.ok (), { s with operations := ops, registry := reg })

/-- `get_methods_for_type` (lines 96-111): look the type up in the
registry, raising `ValueError` when absent; the router's state is
returned unchanged (the method only reads it). -/
def getMethodsForType (s : RState) (ty : Nat) :
    Except PyExc (List (String × Method)) × RState :=
  match alistLookup s.registry ty with
  | Option.none =>
    (Except.error ⟨"ValueError", "No methods registered for type " ++ typeName ty⟩, s)
  | some ms => (Except.ok ms, s)


/-- Python `repr(v)` for the modelled values, as used when values are
interpolated into error strings (application objects get a model
rendering, since their Python repr contains a memory address). -/
def pyRepr : Value → String
  | Value.none => "None"
  | Value.bool true => "True"
  | Value.bool false => "False"
  | Value.int n => toString n
  | Value.str s => "\x27" ++ s ++ "\x27"
  | Value.obj i t => "<" ++ typeName t ++ " object " ++ toString i ++ ">"
  | Value.dict entries => "\x7b" ++ pyReprEntries entries ++ "\x7d"
where
  pyReprEntries : List (String × Value) → String
    | [] => ""
    | [(k, v)] => "\x27" ++ k ++ "\x27: " ++ pyRepr v
    | (k, v) :: rest => "\x27" ++ k ++ "\x27: " ++ pyRepr v ++ ", " ++ pyReprEntries rest

/-- Python `str(v)` (differs from `repr` only on strings). -/
def pyStr : Value → String
  | Value.str s => s
  | v => pyRepr v

/-- The failing result envelope `{"status": False, "object": o,
"method": None, "result": None, "error": msg}` built on every router
error path. -/
def errEnv (o : Value) (msg : String) : Value :=
  Value.dict [("status", Value.bool false), ("object", o), ("method", Value.none),
              ("result", Value.none), ("error", Value.str msg)]

/-- `isinstance(v, (str, type(None)))`: the top-level and per-sub-request
type check for `"method"`. -/
def methodOk (v : Value) : Bool := v.isStr || v.isNone

/-- `isinstance(v, (dict, type(None)))`: the top-level and per-sub-request
type check for `"attributes"`. -/
def attrsOk (v : Value) : Bool := v.isDict || v.isNone

/-- `f"Request must be a dictionary, got {type(request).__name__}"`. -/
def reqTypeMsg (v : Value) : String :=
  "Request must be a dictionary, got " ++ typeName (typeOf v)

/-- `f"Invalid 'method' type: expected str or None, got {...__name__}"`. -/
def methodTypeMsg (v : Value) : String :=
  "Invalid \x27method\x27 type: expected str or None, got " ++ typeName (typeOf v)

/-- `f"Invalid 'attributes' type: expected dict or None, got {...__name__}"`. -/
def attrsTypeMsg (v : Value) : String :=
  "Invalid \x27attributes\x27 type: expected dict or None, got " ++ typeName (typeOf v)

/-- The Python repr of the `invalid_sub_requests` list of
`(key, type-name)` pairs, e.g. `[('b', 'int')]`. -/
def pairsRepr (pairs : List (String × String)) : String :=
  "[" ++ String.intercalate ", "
    (pairs.map fun p => "(\x27" ++ p.1 ++ "\x27, \x27" ++ p.2 ++ "\x27)") ++ "]"

/-- `f"Invalid sub-request type in sequence: {invalid_sub_requests}"`. -/
def seqMsg (invalid : List (String × Value)) : String :=
  "Invalid sub-request type in sequence: " ++
    pairsRepr (invalid.map fun kv => (kv.1, typeName (typeOf kv.2)))

/-- `f"Operation '{operation}' not registered"`. -/
def opNotRegMsg (operation : Value) : String :=
  "Operation \x27" ++ pyStr operation ++ "\x27 not registered"

/-- `f"Unsupported object type: {type(effective_obj)}"` (the f-string of
a type object is `<class '...'>`). -/
def unsupportedTypeMsg (t : Nat) : String :=
  "Unsupported object type: <class \x27" ++ typeName t ++ "\x27>"

/-- `_validate_object(obj, "request object")` (lines 74-94): fall back
to the managing object, raise `ValueError` when neither is provided, and
in strict mode raise `ValueError` when the resolved object's type has no
registry entry. -/
def validateObject (s : RState) (obj : Value) : Except PyExc Value :=
  let eff := match obj with | Value.none => s.managing | v => v
  match eff with
  | Value.none =>
    Except.error ⟨"ValueError", "No request object or managing object provided"⟩
  | eff =>
    if s.strict && !(hasKey s.registry (typeOf eff)) then
      Except.error ⟨"ValueError", unsupportedTypeMsg (typeOf eff)⟩
    else Except.ok eff

/-- The `TypeError` CPython raises when a dict is used as a dict key:
`dict.get` hashes its argument, and dicts are unhashable. -/
def unhashErr : PyExc := ⟨"TypeError", "unhashable type: \x27dict\x27"⟩

/-- `self._operations.get(operation)` (line 326): the operations table
is keyed by strings, so a hashable non-string operation value finds no
handler; a dict operation value is unhashable, and `dict.get` raises
`TypeError` for it — uncaught at line 326, which sits outside both
`try` blocks of `_process_single_request`. -/
def lookupOperation (ops : List (String × Instance)) : Value → Except PyExc (Option Instance)
  | Value.str name => Except.ok (alistLookup ops name)
  | Value.dict _ => Except.error unhashErr
  | _ => Except.ok Option.none

/-- `attributes.copy()`: a fresh shallow snapshot of the entry list; the
handler receives this snapshot, never the caller's dict object, so later
mutation of the caller's dict cannot change it. -/
def dictCopy (entries : List (String × Value)) : List (String × Value) := entries

/-- Lines 338-345 of `_process_single_request`: build the `execute_args`
payload.  `None` models the `Invalid attributes type` early return taken
when `attributes or method` is truthy but `attributes` is not a dict. -/
def buildExecuteArgs (eff attributes method : Value) : Option ExecuteArgs :=
  if truthy attributes || truthy method then
    match attributes with
    | Value.dict es =>
      some { obj := eff, attributes := some (dictCopy es)
             method := if truthy method then some method else Option.none }
    | _ => Option.none
  else some { obj := eff, attributes := Option.none, method := Option.none }

/-- Lines 347-361: invoke `execute` and normalize its result into the
envelope (adding `error` only on a falsy status); any exception raised
by `execute` is caught and converted into a failing envelope carrying
the exception's message. -/
def runExecute (inst : Instance) (args : ExecuteArgs) (eff : Value) : Value :=
  match inst.exec args with
  | Except.ok sr =>
    Value.dict ([("status", sr.status), ("object", sr.object),
                 ("method", sr.method), ("result", sr.result)] ++
                (if truthy sr.status then [] else [("error", sr.error)]))
  | Except.error e => errEnv eff e.msg

/-- `_process_single_request` (lines 307-361): resolve the operation and
the target object, build the payload, and run the handler.  Every
failure it handles is returned as an envelope, but the operations-table
lookup at line 326 sits outside both `try` blocks, so a truthy
unhashable (dict) operation value makes the whole call raise
`TypeError` (`Except.error`). -/
def processSingleRequest (s : RState) (req : List (String × Value)) : Except PyExc Value :=
  let operation := alistGet req "operation"
  let obj := alistGet req "obj"
  let method := alistGet req "method"
  let attributes := alistGetD req "attributes" (Value.dict [])
  if !(truthy operation) then
    Except.ok (errEnv obj "No operation specified in request")
  else
    match lookupOperation s.operations operation with
    | Except.error e => Except.error e
    | Except.ok Option.none => Except.ok (errEnv obj (opNotRegMsg operation))
    | Except.ok (some inst) =>
      match validateObject s obj with
      | Except.error e => Except.ok (errEnv obj e.msg)
      | Except.ok eff =>
        match buildExecuteArgs eff attributes method with
        | Option.none => Except.ok (errEnv eff "Invalid attributes type")
        | some args => Except.ok (runExecute inst args eff)

/-- The per-sub-request body of the sequence loop in `process_request`
(lines 254-286): validate `operation` presence and the `method` /
`attributes` types, then dispatch through `_process_single_request`
(whose uncaught `TypeError` propagates).  The non-dict arm is
unreachable: the loop runs only after every value of the batch has been
checked to be a dict. -/
def subProcess (s : RState) (v : Value) : Except PyExc Value :=
  match v with
  | Value.dict sub =>
    if !(hasKey sub "operation") then
      Except.ok (errEnv (alistGet sub "obj") "Missing \x27operation\x27 in sub-request")
    else if hasKey sub "method" && !(methodOk (alistGet sub "method")) then
      Except.ok (errEnv (alistGet sub "obj") (methodTypeMsg (alistGet sub "method")))
    else if hasKey sub "attributes" && !(attrsOk (alistGet sub "attributes")) then
      Except.ok (errEnv (alistGet sub "obj") (attrsTypeMsg (alistGet sub "attributes")))
    else processSingleRequest s sub
  | _ => Except.ok (errEnv Value.none "unreachable: batch values are checked to be dicts")

/-- The sequence loop of `process_request` (lines 253-286): process the
sub-requests in iteration order, collecting one result per id; an
exception raised by any sub-request propagates immediately, aborting
the loop and discarding the partial results. -/
def processBatch (s : RState) : List (String × Value) → Except PyExc (List (String × Value))
  | [] => Except.ok []
  | kv :: rest =>
    match subProcess s kv.2 with
    | Except.error e => Except.error e
    | Except.ok r =>
      match processBatch s rest with
      | Except.error e => Except.error e
      | Except.ok rs => Except.ok ((kv.1, r) :: rs)

/-- `process_request` (lines 208-305).  A non-dict request raises
`TypeError`.  A dict with at least one entry and no `"operation"` key is
a batch: if any value is a non-dict the whole batch fails with a single
envelope, otherwise every sub-request is processed in the input's
iteration order (an uncaught exception in one aborts the whole call).
Otherwise the dict is a single request: validate `operation` presence
and the `method` / `attributes` types, then dispatch.  The state is
returned unchanged: no statement of `process_request`,
`_process_single_request` or `_validate_object` assigns to the router's
fields. -/
def processRequest (s : RState) (request : Value) : Except PyExc Value × RState :=
  match request with
  | Value.dict entries =>
    if !entries.isEmpty && !(hasKey entries "operation") then
      if (entries.filter fun kv => !(kv.2.isDict)).isEmpty then
        ((processBatch s entries).map Value.dict, s)
      else
        (Except.ok (errEnv Value.none (seqMsg (entries.filter fun kv => !(kv.2.isDict)))), s)
    else if !(hasKey entries "operation") then
      (Except.ok (errEnv (alistGet entries "obj") "No operation specified in request"), s)
    else if hasKey entries "method" && !(methodOk (alistGet entries "method")) then
      (Except.ok (errEnv (alistGet entries "obj") (methodTypeMsg (alistGet entries "method"))), s)
    else if hasKey entries "attributes" && !(attrsOk (alistGet entries "attributes")) then
      (Except.ok (errEnv (alistGet entries "obj") (attrsTypeMsg (alistGet entries "attributes"))), s)
    else (processSingleRequest s entries, s)
  | v => (Except.error ⟨"TypeError", reqTypeMsg v⟩, s)

/-- `get_supported_operations` (lines 363-369). -/
def getSupportedOperations (s : RState) : List String :=
  s.operations.map Prod.fst

/-- Whether an `Except` models a normal return. -/
def isOkE {ε α : Type} : Except ε α → Bool
  | Except.ok _ => true
  | Except.error _ => false

/-- Look a key up in a returned envelope/mapping result (used to observe
whether a result is a per-id mapping or a single envelope). -/
def resLookup (p : Except PyExc Value × RState) (k : String) : Option Value :=
  match p.1 with
  | Except.ok (Value.dict es) => alistLookup es k
  | _ => Option.none

/-- Whether a batch value's `"operation"` entry is safe to look up in
the operations table: not a dict, the unhashable type of this model
(non-dict batch values never reach the lookup, so they are safe). -/
def subOpSafe : Value → Bool
  | Value.dict sub => !(alistGet sub "operation").isDict
  | _ => true

/-- The envelope a non-raising sub-request produces.  The error arm is
never reached under the hypotheses of the theorems below; it is fixed
arbitrarily to `Value.none`. -/
def subValue (s : RState) (v : Value) : Value :=
  match subProcess s v with
  | Except.ok r => r
  | Except.error _ => Value.none

/-- A sufficient condition for a dict request to raise no exception:
its own `"operation"` value is not a dict, and (when it is a batch)
no sub-request's `"operation"` value is a dict either. -/
def noDictOperation : Value → Bool
  | Value.dict entries =>
    !(alistGet entries "operation").isDict &&
      entries.all fun kv => subOpSafe kv.2
  | _ => true

/-- The invariant claimed by the spec for the registry: it equals (as a
Python dict, i.e. pointwise at every type) the registry rebuilt from
the current operations and base classes. -/
def registryInSync (s : RState) : Prop :=
  ∀ ty, alistLookup s.registry ty =
    alistLookup (buildRegistry s.operations s.baseClasses s.classMethods) ty

/-- An introspection environment in which no class exposes public
methods (sufficient for the dispatch scenarios below, which never call
methods through the registry). -/
def env0 : Nat → List String := fun _ => []

/-- Render an `execute` payload back into a value, so a test handler
can echo exactly the keyword arguments it received. -/
def payloadValue (args : ExecuteArgs) : Value :=
  Value.dict ([("obj", args.obj)] ++
    (match args.attributes with
     | some es => [("attributes", Value.dict es)]
     | Option.none => []) ++
    (match args.method with
     | some m => [("method", m)]
     | Option.none => []))

/-- A handler whose `execute` raises `RuntimeError("handler exploded")`. -/
def raisingInst : Instance :=
  { id := 1, ty := 9, hasExecute := true, methodNames := ["execute"]
    exec := fun _ => Except.error ⟨"RuntimeError", "handler exploded"⟩ }

/-- A handler whose `execute` succeeds and echoes the payload it
received in the `result` field. -/
def echoInst : Instance :=
  { id := 2, ty := 9, hasExecute := true, methodNames := ["execute"]
    exec := fun args => Except.ok
      { status := Value.bool true, object := args.obj, method := Value.none
        result := payloadValue args, error := Value.none } }

/-- Two distinct handler instances of the same concrete class (tag 10):
their public method names coincide but their bound methods differ. -/
def instA : Instance :=
  { id := 11, ty := 10, hasExecute := true, methodNames := ["manage"]
    exec := fun _ => Except.error ⟨"RuntimeError", "stub"⟩ }

/-- See `instA`: the second instance of the same class. -/
def instB : Instance :=
  { id := 12, ty := 10, hasExecute := true, methodNames := ["manage"]
    exec := fun _ => Except.error ⟨"RuntimeError", "stub"⟩ }

/-- A freshly constructed router: no managing object, no base classes,
no operations, strict checks off. -/
def s0 : RState := mkManipulator Value.none [] [] false env0

/-- A router managing the application object `Value.obj 0 7`, with the
operation `"op"` bound to the echoing handler. -/
def sEcho : RState := mkManipulator (Value.obj 0 7) [] [("op", echoInst)] false env0

/-- A router managing `Value.obj 0 7`, with `"op"` bound to the raising
handler. -/
def sRaise : RState := mkManipulator (Value.obj 0 7) [] [("op", raisingInst)] false env0

/-- A batch request whose value under `"b"` is not a dict. -/
def c1req : Value :=
  Value.dict [("a", Value.dict [("operation", Value.str "x")]), ("b", Value.int 5)]

/-- A single request that supplies `"attributes"` as an (empty) dict. -/
def c8req : List (String × Value) :=
  [("operation", Value.str "op"), ("attributes", Value.dict [])]

theorem hasKey_false_iff {α β : Type} [DecidableEq α] (l : List (α × β)) (k : α) :
    hasKey l k = false ↔ alistLookup l k = Option.none := by
  unfold hasKey
  cases alistLookup l k <;> simp

theorem alistLookup_insertA_self {α β : Type} [DecidableEq α]
    (l : List (α × β)) (k : α) (v : β) :
    alistLookup (insertA l k v) k = some v := by
  induction l with
  | nil => simp [insertA, alistLookup]
  | cons hd tl ih =>
    obtain ⟨a, b⟩ := hd
    by_cases h : a = k
    · simp [insertA, alistLookup, h]
    · simp [insertA, alistLookup, h, ih]

theorem alistLookup_insertA_ne {α β : Type} [DecidableEq α]
    (l : List (α × β)) (k k' : α) (v : β) (h : k' ≠ k) :
    alistLookup (insertA l k v) k' = alistLookup l k' := by
  have hkk : ¬ k = k' := fun he => h he.symm
  induction l with
  | nil => simp [insertA, alistLookup, hkk]
  | cons hd tl ih =>
    obtain ⟨a, b⟩ := hd
    by_cases hh : a = k
    · have ha : ¬ a = k' := by rw [hh]; exact hkk
      simp [insertA, alistLookup, hh, ha, hkk]
    · by_cases hh' : a = k'
      · simp [insertA, alistLookup, hh, hh', h]
      · simp [insertA, alistLookup, hh, hh', ih]

theorem insertA_eq_append {α β : Type} [DecidableEq α]
    (l : List (α × β)) (k : α) (v : β) (h : hasKey l k = false) :
    insertA l k v = l ++ [(k, v)] := by
  rw [hasKey_false_iff] at h
  induction l with
  | nil => simp [insertA]
  | cons hd tl ih =>
    obtain ⟨a, b⟩ := hd
    unfold alistLookup at h
    by_cases hh : a = k
    · rw [if_pos hh] at h
      exact Option.noConfusion h
    · rw [if_neg hh] at h
      simp [insertA, hh, ih h]

theorem alistLookup_append_self {α β : Type} [DecidableEq α]
    (l : List (α × β)) (k : α) (v : β) (h : hasKey l k = false) :
    alistLookup (l ++ [(k, v)]) k = some v := by
  rw [hasKey_false_iff] at h
  induction l with
  | nil => simp [alistLookup]
  | cons hd tl ih =>
    obtain ⟨a, b⟩ := hd
    unfold alistLookup at h
    by_cases hh : a = k
    · rw [if_pos hh] at h
      exact Option.noConfusion h
    · rw [if_neg hh] at h
      simp [alistLookup, hh, ih h]

theorem alistLookup_append_ne {α β : Type} [DecidableEq α]
    (l : List (α × β)) (k k' : α) (v : β) (h : k' ≠ k) :
    alistLookup (l ++ [(k, v)]) k' = alistLookup l k' := by
  have hkk : ¬ k = k' := fun he => h he.symm
  induction l with
  | nil => simp [alistLookup, hkk]
  | cons hd tl ih =>
    obtain ⟨a, b⟩ := hd
    by_cases hh : a = k'
    · simp [alistLookup, hh]
    · simp [alistLookup, hh, ih]

theorem addBaseClasses_cons (env : Nat → List String) (r : Registry)
    (c : Nat) (cs : List Nat) :
    addBaseClasses env r (c :: cs) =
      addBaseClasses env
        (if (classMethodsOf env c).isEmpty then r else insertA r c (classMethodsOf env c))
        cs := rfl

theorem addBaseClasses_congr (env : Nat → List String) (bs : List Nat)
    (r1 r2 : Registry) (k : Nat)
    (h : alistLookup r1 k = alistLookup r2 k) :
    alistLookup (addBaseClasses env r1 bs) k =
      alistLookup (addBaseClasses env r2 bs) k := by
  induction bs generalizing r1 r2 with
  | nil => exact h
  | cons c cs ih =>
    rw [addBaseClasses_cons, addBaseClasses_cons]
    by_cases he : (classMethodsOf env c).isEmpty
    · simp only [he, if_pos]
      exact ih r1 r2 h
    · simp only [he, if_neg, Bool.not_eq_true]
      apply ih
      by_cases hc : k = c
      · subst hc
        rw [alistLookup_insertA_self, alistLookup_insertA_self]
      · rw [alistLookup_insertA_ne _ _ _ _ hc, alistLookup_insertA_ne _ _ _ _ hc]
        exact h

theorem addBaseClasses_none (env : Nat → List String) (bs : List Nat)
    (r : Registry) (k : Nat)
    (h : alistLookup (addBaseClasses env r bs) k = Option.none) :
    alistLookup r k = Option.none ∧
      ∀ c ∈ bs, c = k → (classMethodsOf env c).isEmpty = true := by
  induction bs generalizing r with
  | nil => exact ⟨h, by simp⟩
  | cons c cs ih =>
    rw [addBaseClasses_cons] at h
    obtain ⟨hstep, hrest⟩ := ih _ h
    by_cases he : (classMethodsOf env c).isEmpty
    · simp only [he, if_pos] at hstep
      refine ⟨hstep, ?_⟩
      intro c' hc' hck
      rcases List.mem_cons.mp hc' with rfl | hmem
      · exact he
      · exact hrest c' hmem hck
    · simp only [he, if_neg, Bool.not_eq_true] at hstep
      by_cases hc : c = k
      · subst hc
        rw [alistLookup_insertA_self] at hstep
        exact Option.noConfusion hstep
      · rw [alistLookup_insertA_ne _ _ _ _ (fun he' => hc he'.symm)] at hstep
        refine ⟨hstep, ?_⟩
        intro c' hc' hck
        rcases List.mem_cons.mp hc' with rfl | hmem
        · exact absurd hck hc
        · exact hrest c' hmem hck

theorem addBaseClasses_skip (env : Nat → List String) (bs : List Nat)
    (r : Registry) (k : Nat)
    (h : ∀ c ∈ bs, c = k → (classMethodsOf env c).isEmpty = true) :
    alistLookup (addBaseClasses env r bs) k = alistLookup r k := by
  induction bs generalizing r with
  | nil => rfl
  | cons c cs ih =>
    rw [addBaseClasses_cons]
    by_cases he : (classMethodsOf env c).isEmpty
    · simp only [he, if_pos]
      exact ih _ fun c' hc' => h c' (List.mem_cons_of_mem _ hc')
    · simp only [he, if_neg, Bool.not_eq_true]
      have hck : ¬ c = k := fun hck => he (h c (List.mem_cons_self c cs) hck)
      rw [ih _ fun c' hc' => h c' (List.mem_cons_of_mem _ hc')]
      exact alistLookup_insertA_ne _ _ _ _ fun he' => hck he'.symm

theorem opsRegistry_append (l : List (String × Instance)) (op : String) (inst : Instance) :
    opsRegistry (l ++ [(op, inst)]) =
      insertA (opsRegistry l) inst.ty (methodsOf inst) := by
  unfold opsRegistry
  rw [List.foldl_append]
  rfl

theorem processRequest_dict (s : RState) (entries : List (String × Value)) :
    processRequest s (Value.dict entries) =
      (if !entries.isEmpty && !(hasKey entries "operation") then
        if (entries.filter fun kv => !(kv.2.isDict)).isEmpty then
          ((processBatch s entries).map Value.dict, s)
        else
          (Except.ok (errEnv Value.none
            (seqMsg (entries.filter fun kv => !(kv.2.isDict)))), s)
      else if !(hasKey entries "operation") then
        (Except.ok (errEnv (alistGet entries "obj") "No operation specified in request"), s)
      else if hasKey entries "method" && !(methodOk (alistGet entries "method")) then
        (Except.ok (errEnv (alistGet entries "obj")
          (methodTypeMsg (alistGet entries "method"))), s)
      else if hasKey entries "attributes" && !(attrsOk (alistGet entries "attributes")) then
        (Except.ok (errEnv (alistGet entries "obj")
          (attrsTypeMsg (alistGet entries "attributes"))), s)
      else (processSingleRequest s entries, s)) := rfl

theorem processSingleRequest_eq (s : RState) (req : List (String × Value)) :
    processSingleRequest s req =
      (if !(truthy (alistGet req "operation")) then
        Except.ok (errEnv (alistGet req "obj") "No operation specified in request")
      else
        match lookupOperation s.operations (alistGet req "operation") with
        | Except.error e => Except.error e
        | Except.ok Option.none =>
          Except.ok (errEnv (alistGet req "obj") (opNotRegMsg (alistGet req "operation")))
        | Except.ok (some inst) =>
          match validateObject s (alistGet req "obj") with
          | Except.error e => Except.ok (errEnv (alistGet req "obj") e.msg)
          | Except.ok eff =>
            match buildExecuteArgs eff (alistGetD req "attributes" (Value.dict []))
                (alistGet req "method") with
            | Option.none => Except.ok (errEnv eff "Invalid attributes type")
            | some args => Except.ok (runExecute inst args eff)) := rfl

theorem hasKey_of_get_str (entries : List (String × Value)) (k : String) (sv : String)
    (h : alistGet entries k = Value.str sv) : hasKey entries k = true := by
  unfold hasKey
  unfold alistGet at h
  cases hl : alistLookup entries k with
  | none =>
    rw [hl] at h
    exact Value.noConfusion h
  | some v => simp

theorem truthy_str_of_ne (sv : String) (h : sv ≠ "") : truthy (Value.str sv) = true := by
  simp [truthy, h]

theorem lookupOperation_error (ops : List (String × Instance)) (v : Value) (e : PyExc)
    (h : lookupOperation ops v = Except.error e) : e = unhashErr := by
  cases v with
  | dict es =>
    injection h with h'
    exact h'.symm
  | none => exact Except.noConfusion h
  | bool b => exact Except.noConfusion h
  | int n => exact Except.noConfusion h
  | str sv => exact Except.noConfusion h
  | obj i t => exact Except.noConfusion h

theorem lookupOperation_error_isDict (ops : List (String × Instance)) (v : Value)
    (e : PyExc) (h : lookupOperation ops v = Except.error e) : v.isDict = true := by
  cases v with
  | dict es => rfl
  | none => exact Except.noConfusion h
  | bool b => exact Except.noConfusion h
  | int n => exact Except.noConfusion h
  | str sv => exact Except.noConfusion h
  | obj i t => exact Except.noConfusion h

theorem processSingleRequest_error (s : RState) (req : List (String × Value)) (e : PyExc)
    (h : processSingleRequest s req = Except.error e) : e = unhashErr := by
  rw [processSingleRequest_eq] at h
  split at h
  · exact Except.noConfusion h
  · split at h
    · rename_i e' heq
      injection h with h'
      subst h'
      exact lookupOperation_error _ _ _ heq
    · exact Except.noConfusion h
    · split at h
      · exact Except.noConfusion h
      · split at h
        · exact Except.noConfusion h
        · exact Except.noConfusion h

theorem processSingleRequest_isOk_of_safe (s : RState) (req : List (String × Value))
    (hsafe : (alistGet req "operation").isDict = false) :
    isOkE (processSingleRequest s req) = true := by
  rw [processSingleRequest_eq]
  split
  · rfl
  · split
    · rename_i e' heq
      have hd := lookupOperation_error_isDict _ _ _ heq
      rw [hsafe] at hd
      exact Bool.noConfusion hd
    · rfl
    · split
      · rfl
      · split
        · rfl
        · rfl

theorem subProcess_error (s : RState) (v : Value) (e : PyExc)
    (h : subProcess s v = Except.error e) : e = unhashErr := by
  cases v with
  | dict sub =>
    simp only [subProcess] at h
    split at h
    · exact Except.noConfusion h
    · split at h
      · exact Except.noConfusion h
      · split at h
        · exact Except.noConfusion h
        · exact processSingleRequest_error _ _ _ h
  | none => exact Except.noConfusion h
  | bool b => exact Except.noConfusion h
  | int n => exact Except.noConfusion h
  | str sv => exact Except.noConfusion h
  | obj i t => exact Except.noConfusion h

theorem subProcess_isOk_of_safe (s : RState) (v : Value)
    (hsafe : subOpSafe v = true) :
    isOkE (subProcess s v) = true := by
  cases v with
  | dict sub =>
    have hs' : (alistGet sub "operation").isDict = false := by
      cases hd : (alistGet sub "operation").isDict
      · rfl
      · simp only [subOpSafe, hd] at hsafe
        exact Bool.noConfusion hsafe
    simp only [subProcess]
    split
    · rfl
    · split
      · rfl
      · split
        · rfl
        · exact processSingleRequest_isOk_of_safe s sub hs'
  | none => rfl
  | bool b => rfl
  | int n => rfl
  | str sv => rfl
  | obj i t => rfl

theorem subProcess_eq_ok (s : RState) (v : Value)
    (h : isOkE (subProcess s v) = true) :
    subProcess s v = Except.ok (subValue s v) := by
  unfold subValue
  cases hx : subProcess s v with
  | error e =>
    rw [hx] at h
    exact Bool.noConfusion h
  | ok r => rfl

theorem processBatch_error (s : RState) (l : List (String × Value)) (e : PyExc)
    (h : processBatch s l = Except.error e) : e = unhashErr := by
  induction l with
  | nil => exact Except.noConfusion h
  | cons kv rest ih =>
    simp only [processBatch] at h
    cases hx : subProcess s kv.2 with
    | error e' =>
      rw [hx] at h
      injection h with h'
      subst h'
      exact subProcess_error _ _ _ hx
    | ok r =>
      rw [hx] at h
      cases hr : processBatch s rest with
      | error e2 =>
        rw [hr] at h
        injection h with h'
        subst h'
        exact ih hr
      | ok rs =>
        rw [hr] at h
        exact Except.noConfusion h

theorem processBatch_ok (s : RState) (l : List (String × Value))
    (h : ∀ kv ∈ l, isOkE (subProcess s kv.2) = true) :
    processBatch s l = Except.ok (l.map fun kv => (kv.1, subValue s kv.2)) := by
  induction l with
  | nil => rfl
  | cons kv rest ih =>
    have h1 : subProcess s kv.2 = Except.ok (subValue s kv.2) :=
      subProcess_eq_ok s kv.2 (h kv (List.mem_cons_self kv rest))
    have h2 : processBatch s rest =
        Except.ok (rest.map fun kv => (kv.1, subValue s kv.2)) :=
      ih fun kv' hm => h kv' (List.mem_cons_of_mem kv hm)
    simp only [processBatch]
    rw [h1, h2]
    simp

/-- C2: a Single Request dict missing `"operation"` — the empty dict at
top level (a non-empty dict without `"operation"` is classified as a
Batch), or any sub-request of a Batch — yields a status=false envelope
whose object field echoes the caller-supplied `"obj"` (`None` when
absent) and whose error field is a non-null message. -/
theorem c2_missing_operation_envelope (s : RState) (entries sub : List (String × Value))
    (hempty : entries = [])
    (hsub : hasKey sub "operation" = false) :
    (processRequest s (Value.dict entries)).1 =
      Except.ok (errEnv (alistGet entries "obj") "No operation specified in request") ∧
    subProcess s (Value.dict sub) =
      Except.ok (errEnv (alistGet sub "obj")
        "Missing \x27operation\x27 in sub-request") := by
  constructor
  · subst hempty
    rfl
  · simp [subProcess, hsub]

theorem c2_witness :
    hasKey [("obj", Value.int 1)] "operation" = false ∧
    ((processRequest s0 (Value.dict [])).1 =
      Except.ok (errEnv (alistGet [] "obj") "No operation specified in request") ∧
     subProcess s0 (Value.dict [("obj", Value.int 1)]) =
      Except.ok (errEnv (alistGet [("obj", Value.int 1)] "obj")
        "Missing \x27operation\x27 in sub-request")) :=
  ⟨by decide, c2_missing_operation_envelope s0 [] [("obj", Value.int 1)] rfl (by decide)⟩

/-- C3 fails as stated: a non-dict request makes `process_request`
raise `TypeError` (lines 225-227), so it is not true that it never
raises for every input. -/
theorem c3_counterexample :
    (processRequest s0 (Value.int 5)).1 =
      Except.error ⟨"TypeError", "Request must be a dictionary, got int"⟩ := rfl

/-- C3 amended: `process_request` raises only `TypeError`, and only in
two cases — a non-dict request (lines 225-227), and a truthy
unhashable (dict-valued) `"operation"` reaching the operations-table
lookup at line 326, which sits outside both `try` blocks; every other
runtime request-processing error is converted into a returned
status=false envelope.  Conjuncts: a non-dict request raises the
documented `TypeError`; every raise from a dict request is the
unhashable-key `TypeError`; and a dict request none of whose (sub-)
request `"operation"` values is a dict returns normally. -/
theorem c3_amended (s : RState) (v : Value) :
    (v.isDict = false →
      (processRequest s v).1 = Except.error ⟨"TypeError", reqTypeMsg v⟩) ∧
    (∀ e, (processRequest s v).1 = Except.error e →
      v.isDict = false ∨ e = unhashErr) ∧
    (v.isDict = true → noDictOperation v = true →
      isOkE (processRequest s v).1 = true) := by
  refine ⟨?_, ?_, ?_⟩
  · intro hd
    cases v with
    | dict entries => exact absurd hd (by simp [Value.isDict])
    | none => rfl
    | bool b => rfl
    | int n => rfl
    | str sv => rfl
    | obj i t => rfl
  · intro e he
    cases v with
    | dict entries =>
      right
      rw [processRequest_dict] at he
      split at he
      · split at he
        · cases hpb : processBatch s entries with
          | error e2 =>
            rw [hpb] at he
            injection he with h'
            subst h'
            exact processBatch_error _ _ _ hpb
          | ok rs =>
            rw [hpb] at he
            exact Except.noConfusion he
        · exact Except.noConfusion he
      · split at he
        · exact Except.noConfusion he
        · split at he
          · exact Except.noConfusion he
          · split at he
            · exact Except.noConfusion he
            · exact processSingleRequest_error _ _ _ he
    | none => exact Or.inl rfl
    | bool b => exact Or.inl rfl
    | int n => exact Or.inl rfl
    | str sv => exact Or.inl rfl
    | obj i t => exact Or.inl rfl
  · intro hd hn
    cases v with
    | dict entries =>
      simp only [noDictOperation] at hn
      rw [Bool.and_eq_true] at hn
      obtain ⟨ha, hn2⟩ := hn
      have hn1 : (alistGet entries "operation").isDict = false := by
        cases hdd : (alistGet entries "operation").isDict
        · rfl
        · rw [hdd] at ha
          exact Bool.noConfusion ha
      rw [processRequest_dict]
      by_cases hA : (!entries.isEmpty && !(hasKey entries "operation")) = true
      · rw [if_pos hA]
        by_cases hB : ((entries.filter fun kv => !(kv.2.isDict)).isEmpty) = true
        · rw [if_pos hB]
          have hb := processBatch_ok s entries fun kv hm =>
            subProcess_isOk_of_safe s kv.2 (List.all_eq_true.mp hn2 kv hm)
          simp [hb, isOkE, Except.map]
        · rw [if_neg hB]
          rfl
      · rw [if_neg hA]
        by_cases hC : (!(hasKey entries "operation")) = true
        · rw [if_pos hC]
          rfl
        · rw [if_neg hC]
          by_cases hD : (hasKey entries "method" &&
              !(methodOk (alistGet entries "method"))) = true
          · rw [if_pos hD]
            rfl
          · rw [if_neg hD]
            by_cases hE : (hasKey entries "attributes" &&
                !(attrsOk (alistGet entries "attributes"))) = true
            · rw [if_pos hE]
              rfl
            · rw [if_neg hE]
              exact processSingleRequest_isOk_of_safe s entries hn1
    | none => exact absurd hd (by simp [Value.isDict])
    | bool b => exact absurd hd (by simp [Value.isDict])
    | int n => exact absurd hd (by simp [Value.isDict])
    | str sv => exact absurd hd (by simp [Value.isDict])
    | obj i t => exact absurd hd (by simp [Value.isDict])

theorem c3_witness :
    (Value.dict [("x", Value.int 3)]).isDict = true ∧
    noDictOperation (Value.dict [("x", Value.int 3)]) = true ∧
    isOkE (processRequest s0 (Value.dict [("x", Value.int 3)])).1 = true :=
  ⟨rfl, by decide,
    (c3_amended s0 (Value.dict [("x", Value.int 3)])).2.2 rfl (by decide)⟩

/-- C9: every error path leaves the router state unchanged — a failing
`register_operation` raises before any mutation, `get_methods_for_type`
only reads the state, and `process_request` (which produces all
status=false envelopes) contains no assignment to the router's fields
on any path. -/
theorem c9_error_paths_preserve_state (s : RState) (op : String) (inst : Instance)
    (ty : Nat) (v : Value)
    (hreg : isOkE (registerOperation s op inst).1 = false) :
    (registerOperation s op inst).2 = s ∧
    (getMethodsForType s ty).2 = s ∧
    (processRequest s v).2 = s := by
  refine ⟨?_, ?_, ?_⟩
  · unfold registerOperation at hreg ⊢
    by_cases h1 : op = ""
    · simp [h1]
    · cases h2 : inst.hasExecute with
      | true => simp [h1, h2, isOkE] at hreg
      | false => simp [h1, h2]
  · unfold getMethodsForType
    split
    · rfl
    · rfl
  · cases v with
    | dict entries =>
      unfold processRequest
      repeat' split
      all_goals rfl
    | none => rfl
    | bool b => rfl
    | int n => rfl
    | str sv => rfl
    | obj i t => rfl

theorem c9_witness :
    isOkE (registerOperation s0 "" instA).1 = false ∧
    ((registerOperation s0 "" instA).2 = s0 ∧
     (getMethodsForType s0 10).2 = s0 ∧
     (processRequest s0 (Value.dict [])).2 = s0) :=
  ⟨by decide, c9_error_paths_preserve_state s0 "" instA 10 (Value.dict []) (by decide)⟩

/-- C1 fails as stated: for the batch `{"a": {"operation": "x"}, "b": 5}`
the code returns one single whole-batch failing envelope (lines 240-249)
— there is no per-id envelope under `"b"`, and `"a"` is never
dispatched, so a non-dict value IS fatal to the whole batch. -/
theorem c1_counterexample :
    (processRequest s0 c1req).1 =
      Except.ok (errEnv Value.none
        "Invalid sub-request type in sequence: [(\x27b\x27, \x27int\x27)]") ∧
    resLookup (processRequest s0 c1req) "a" = Option.none ∧
    resLookup (processRequest s0 c1req) "b" = Option.none :=
  ⟨rfl, rfl, rfl⟩

/-- C1 amended: when a batch (no top-level `"operation"`, at least one
entry) contains at least one non-dict value, `process_request` returns a
single status=false envelope with object `None`, listing the offending
entries; no sub-request is validated or dispatched. -/
theorem c1_amended (s : RState) (entries : List (String × Value))
    (hop : hasKey entries "operation" = false)
    (hbad : (entries.filter fun kv => !(kv.2.isDict)).isEmpty = false) :
    (processRequest s (Value.dict entries)).1 =
      Except.ok (errEnv Value.none
        (seqMsg (entries.filter fun kv => !(kv.2.isDict)))) := by
  have hne : entries.isEmpty = false := by
    cases entries with
    | nil => simp at hbad
    | cons hd tl => rfl
  rw [processRequest_dict]
  simp [hne, hop, hbad]

theorem c1_witness :
    hasKey [("b", Value.int 5)] "operation" = false ∧
    (([("b", Value.int 5)] : List (String × Value)).filter
      fun kv => !(kv.2.isDict)).isEmpty = false ∧
    (processRequest s0 (Value.dict [("b", Value.int 5)])).1 =
      Except.ok (errEnv Value.none
        (seqMsg ([("b", Value.int 5)].filter fun kv => !(kv.2.isDict)))) :=
  ⟨by decide, by decide, c1_amended s0 [("b", Value.int 5)] (by decide) (by decide)⟩

/-- C4: when the resolved operation is registered, the target object
resolves, and the bound handler's `execute` raises, `process_request`
returns a status=false envelope whose error field is exactly the
exception's message (the exception class is dropped; only `str(e)` is
kept), and the exception does not propagate (the result is a normal
return). -/
theorem c4_execute_exception_enveloped (s : RState) (entries : List (String × Value))
    (inst : Instance) (eff : Value) (opn : String) (args : ExecuteArgs) (exc : PyExc)
    (h1 : alistGet entries "operation" = Value.str opn)
    (h2 : opn ≠ "")
    (h3 : alistLookup s.operations opn = some inst)
    (h4 : validateObject s (alistGet entries "obj") = Except.ok eff)
    (h5 : buildExecuteArgs eff (alistGetD entries "attributes" (Value.dict []))
        (alistGet entries "method") = some args)
    (h6 : inst.exec args = Except.error exc)
    (h7 : methodOk (alistGet entries "method") = true)
    (h8 : attrsOk (alistGet entries "attributes") = true) :
    (processRequest s (Value.dict entries)).1 = Except.ok (errEnv eff exc.msg) := by
  have hop : hasKey entries "operation" = true := hasKey_of_get_str _ _ _ h1
  have htr : truthy (alistGet entries "operation") = true := by
    rw [h1]
    exact truthy_str_of_ne opn h2
  have hlu : lookupOperation s.operations (alistGet entries "operation") =
      Except.ok (some inst) := by
    rw [h1]
    simp [lookupOperation, h3]
  rw [processRequest_dict]
  simp [hop, h7, h8, processSingleRequest_eq, htr, hlu, h4, h5, runExecute, h6]

theorem c4_witness :
    alistGet [("operation", Value.str "op")] "operation" = Value.str "op" ∧
    raisingInst.exec { obj := Value.obj 0 7, attributes := Option.none
                       method := Option.none } =
      Except.error ⟨"RuntimeError", "handler exploded"⟩ ∧
    (processRequest sRaise (Value.dict [("operation", Value.str "op")])).1 =
      Except.ok (errEnv (Value.obj 0 7) "handler exploded") :=
  ⟨rfl, rfl,
    c4_execute_exception_enveloped sRaise [("operation", Value.str "op")]
      raisingInst (Value.obj 0 7) "op"
      { obj := Value.obj 0 7, attributes := Option.none, method := Option.none }
      ⟨"RuntimeError", "handler exploded"⟩
      rfl (by decide) rfl rfl rfl rfl rfl rfl⟩

/-- C10: a request whose `"attributes"` key is present with value
`None` and whose `"method"` is a non-empty string passes the top-level
validation (which accepts `None` attributes), but because
`attributes or method` is truthy while `attributes` is not a dict,
`_process_single_request` returns a status=false envelope with error
`"Invalid attributes type"`; the handler's `execute` is never invoked
(the conclusion holds for every handler `inst`, whatever its `exec`
does). -/
theorem c10_none_attributes_with_method (s : RState) (entries : List (String × Value))
    (inst : Instance) (eff : Value) (opn m : String)
    (h1 : alistGet entries "operation" = Value.str opn)
    (h2 : opn ≠ "")
    (h3 : alistLookup s.operations opn = some inst)
    (h4 : validateObject s (alistGet entries "obj") = Except.ok eff)
    (h5 : alistLookup entries "attributes" = some Value.none)
    (h6 : alistGet entries "method" = Value.str m)
    (h7 : m ≠ "") :
    (processRequest s (Value.dict entries)).1 =
      Except.ok (errEnv eff "Invalid attributes type") := by
  have hop : hasKey entries "operation" = true := hasKey_of_get_str _ _ _ h1
  have htr : truthy (alistGet entries "operation") = true := by
    rw [h1]
    exact truthy_str_of_ne opn h2
  have hlu : lookupOperation s.operations (alistGet entries "operation") =
      Except.ok (some inst) := by
    rw [h1]
    simp [lookupOperation, h3]
  have hga : alistGet entries "attributes" = Value.none := by
    unfold alistGet
    rw [h5]
    rfl
  have hgd : alistGetD entries "attributes" (Value.dict []) = Value.none := by
    unfold alistGetD
    rw [h5]
    rfl
  have h8 : attrsOk (alistGet entries "attributes") = true := by
    rw [hga]
    rfl
  have h9 : methodOk (alistGet entries "method") = true := by
    rw [h6]
    rfl
  have hba : buildExecuteArgs eff (alistGetD entries "attributes" (Value.dict []))
      (alistGet entries "method") = Option.none := by
    rw [hgd, h6]
    unfold buildExecuteArgs
    simp [truthy, truthy_str_of_ne m h7, h7]
  rw [processRequest_dict]
  simp [hop, h8, h9, processSingleRequest_eq, htr, hlu, h4, hba]

theorem c10_witness :
    alistLookup [("operation", Value.str "op"), ("method", Value.str "m"),
                 ("attributes", Value.none)] "attributes" = some Value.none ∧
    (processRequest sEcho (Value.dict
        [("operation", Value.str "op"), ("method", Value.str "m"),
         ("attributes", Value.none)])).1 =
      Except.ok (errEnv (Value.obj 0 7) "Invalid attributes type") :=
  ⟨rfl,
    c10_none_attributes_with_method sEcho
      [("operation", Value.str "op"), ("method", Value.str "m"),
       ("attributes", Value.none)]
      echoInst (Value.obj 0 7) "op" "m"
      rfl (by decide) rfl rfl rfl rfl (by decide)⟩

/-- C8 fails as stated: in the request
`{"operation": "op", "attributes": {}}` the key `"attributes"` IS
supplied, yet because the code tests truthiness (`if attributes or
method:`) and the empty dict is falsy, the payload handed to `execute`
contains no `"attributes"` entry at all — the echoing handler's `result`
shows the payload was `{"obj": <managed object>}` only. -/
theorem c8_counterexample :
    hasKey c8req "attributes" = true ∧
    (processRequest sEcho (Value.dict c8req)).1 =
      Except.ok (Value.dict
        [("status", Value.bool true), ("object", Value.obj 0 7),
         ("method", Value.none), ("result", Value.dict [("obj", Value.obj 0 7)])]) :=
  ⟨rfl, rfl⟩

/-- C8 amended: for a dispatched single request, the payload always
contains the resolved object; it additionally contains a snapshot copy
of the `attributes` entries, plus the `method` value when that is
truthy, exactly when the `attributes` value is non-empty or the
`method` value is truthy (so a supplied-but-empty `attributes` — or a
supplied `None`/empty `method` alone — is omitted, and an absent
`attributes` is passed as an empty copied dict when `method` is
truthy); the handler never receives the caller's dict object itself,
only the copy. -/
theorem c8_amended (s : RState) (req : List (String × Value)) (inst : Instance)
    (eff : Value) (opn : String)
    (h1 : alistGet req "operation" = Value.str opn)
    (h2 : opn ≠ "")
    (h3 : alistLookup s.operations opn = some inst)
    (h4 : validateObject s (alistGet req "obj") = Except.ok eff) :
    (∀ es, alistGetD req "attributes" (Value.dict []) = Value.dict es →
      (truthy (Value.dict es) || truthy (alistGet req "method")) = true →
      processSingleRequest s req =
        Except.ok (runExecute inst
          { obj := eff, attributes := some (dictCopy es)
            method := if truthy (alistGet req "method") then
                        some (alistGet req "method")
                      else Option.none }
          eff)) ∧
    ((truthy (alistGetD req "attributes" (Value.dict [])) ||
        truthy (alistGet req "method")) = false →
      processSingleRequest s req =
        Except.ok (runExecute inst
          { obj := eff, attributes := Option.none, method := Option.none } eff)) := by
  have htr : truthy (alistGet req "operation") = true := by
    rw [h1]
    exact truthy_str_of_ne opn h2
  have hlu : lookupOperation s.operations (alistGet req "operation") =
      Except.ok (some inst) := by
    rw [h1]
    simp [lookupOperation, h3]
  constructor
  · intro es hes hcond
    have hb : buildExecuteArgs eff (alistGetD req "attributes" (Value.dict []))
        (alistGet req "method") = some
          { obj := eff, attributes := some (dictCopy es)
            method := if truthy (alistGet req "method") then
                        some (alistGet req "method")
                      else Option.none } := by
      rw [hes]
      unfold buildExecuteArgs
      rw [hcond]
      simp
    simp [processSingleRequest_eq, htr, hlu, h4, hb]
  · intro hcond
    have hb : buildExecuteArgs eff (alistGetD req "attributes" (Value.dict []))
        (alistGet req "method") = some
          { obj := eff, attributes := Option.none, method := Option.none } := by
      unfold buildExecuteArgs
      rw [hcond]
      simp
    simp [processSingleRequest_eq, htr, hlu, h4, hb]

/-- A single request supplying a non-empty `attributes` dict. -/
def c8breq : List (String × Value) :=
  [("operation", Value.str "op"), ("attributes", Value.dict [("k", Value.int 1)])]

theorem c8_witness :
    alistGetD c8breq "attributes" (Value.dict []) = Value.dict [("k", Value.int 1)] ∧
    (truthy (Value.dict [("k", Value.int 1)]) || truthy (alistGet c8breq "method")) = true ∧
    processSingleRequest sEcho c8breq =
      Except.ok (runExecute echoInst
        { obj := Value.obj 0 7, attributes := some (dictCopy [("k", Value.int 1)])
          method := if truthy (alistGet c8breq "method") then
                      some (alistGet c8breq "method")
                    else Option.none }
        (Value.obj 0 7)) :=
  ⟨rfl, rfl,
    (c8_amended sEcho c8breq echoInst (Value.obj 0 7) "op"
      rfl (by decide) rfl rfl).1 [("k", Value.int 1)] rfl rfl⟩

/-- A router holding the operation `"a"` bound to `instA` (of class
tag 10). -/
def s7 : RState := (registerOperation s0 "a" instA).2

/-- C7 fails as stated: after `register_operation("b", instB)` on a
router that already holds a registry entry for class tag 10 (from
`instA`), `get_methods_for_type` returns the OLD instance's bound
methods, not `instB`'s — `register_operation` adds a registry entry
only when the handler's type is absent (line 149). -/
theorem c7_counterexample :
    (getMethodsForType (registerOperation s7 "b" instB).2 instB.ty).1 =
      Except.ok (methodsOf instA) ∧
    methodsOf instA ≠ methodsOf instB :=
  ⟨rfl, by decide⟩

/-- C7 amended: `register_operation(x, H)` with a valid name and a
handler exposing `execute` always succeeds, and a following
`get_methods_for_type(type(H))` always succeeds without any
`update_registry` call; it returns H's own public methods provided
`type(H)` had no registry entry before the registration (otherwise the
pre-existing entry is returned). -/
theorem c7_amended (s : RState) (x : String) (H : Instance)
    (hx : x ≠ "") (hH : H.hasExecute = true) :
    (registerOperation s x H).1 = Except.ok () ∧
    isOkE (getMethodsForType (registerOperation s x H).2 H.ty).1 = true ∧
    (hasKey s.registry H.ty = false →
      (getMethodsForType (registerOperation s x H).2 H.ty).1 =
        Except.ok (methodsOf H)) := by
  have h1 : (registerOperation s x H).1 = Except.ok () := by
    unfold registerOperation
    rw [if_neg hx, hH]
    simp
  have h2 : (registerOperation s x H).2.registry =
      (if hasKey s.registry H.ty then s.registry
       else s.registry ++ [(H.ty, methodsOf H)]) := by
    unfold registerOperation
    rw [if_neg hx, hH]
    simp
  refine ⟨h1, ?_, ?_⟩
  · by_cases hk : hasKey s.registry H.ty = true
    · obtain ⟨ms, hms⟩ := Option.isSome_iff_exists.mp hk
      unfold getMethodsForType
      rw [h2, if_pos hk, hms]
      rfl
    · have hk' : hasKey s.registry H.ty = false := by
        cases h : hasKey s.registry H.ty
        · rfl
        · exact absurd h hk
      unfold getMethodsForType
      rw [h2, if_neg hk, alistLookup_append_self _ _ _ hk']
      rfl
  · intro hfresh
    unfold getMethodsForType
    rw [h2, if_neg (by simp [hfresh]), alistLookup_append_self _ _ _ hfresh]

theorem c7_witness :
    ("x" : String) ≠ "" ∧ instA.hasExecute = true ∧
    hasKey s0.registry instA.ty = false ∧
    ((registerOperation s0 "x" instA).1 = Except.ok () ∧
     isOkE (getMethodsForType (registerOperation s0 "x" instA).2 instA.ty).1 = true ∧
     (hasKey s0.registry instA.ty = false →
       (getMethodsForType (registerOperation s0 "x" instA).2 instA.ty).1 =
         Except.ok (methodsOf instA))) :=
  ⟨by decide, rfl, by decide, c7_amended s0 "x" instA (by decide) rfl⟩

/-- A router on which the operation `"x"` was registered first with
`instA` and then re-registered with `instB` (same class tag 10). -/
def s6 : RState := (registerOperation (registerOperation s0 "x" instA).2 "x" instB).2

/-- C6 fails as stated: after re-registering operation `"x"` with a
second instance of the same class, the operations table holds `instB`
but the registry still holds `instA`'s bound methods (line 149 adds an
entry only when the type is absent), so the registry is NOT the pure
rebuild of the current (operations, base_classes) pair. -/
theorem c6_counterexample : ¬ registryInSync s6 :=
  fun h => absurd (h 10) (by decide)

/-- C6 amended: the registry does equal the rebuild from the current
(operations, base_classes) pair after construction, after
`set_managing_object`, and after `update_registry`; `register_operation`
preserves that equality only when the operation name is new and the
handler's concrete type has no registry entry yet — re-registering an
existing name or an already-seen type can leave the registry out of
sync with a rebuild (see the counterexample). -/
theorem c6_amended (m v : Value) (bs cs : List Nat) (ops : List (String × Instance))
    (st b : Bool) (env : Nat → List String) (s : RState) (op : String) (inst : Instance)
    (hs : registryInSync s)
    (hty : hasKey s.registry inst.ty = false)
    (hop : hasKey s.operations op = false) :
    registryInSync (mkManipulator m bs ops st env) ∧
    registryInSync (setManagingObject s v) ∧
    registryInSync (updateRegistry s cs b) ∧
    registryInSync (registerOperation s op inst).2 := by
  refine ⟨?_, ?_, ?_, ?_⟩
  · intro ty
    rfl
  · intro ty
    unfold setManagingObject
    by_cases hc : (!v.isNone && !(s.baseClasses.contains (typeOf v))) = true
    · rw [if_pos hc]
    · rw [if_neg hc]
      exact hs ty
  · intro ty
    rfl
  · by_cases h1 : op = ""
    · unfold registerOperation
      rw [if_pos h1]
      exact hs
    · cases h2 : inst.hasExecute with
      | false =>
        unfold registerOperation
        rw [if_neg h1, h2]
        simp only [Bool.not_false, if_true]
        exact hs
      | true =>
        have hops : (registerOperation s op inst).2.operations =
            s.operations ++ [(op, inst)] := by
          unfold registerOperation
          rw [if_neg h1, h2]
          simp [insertA_eq_append _ _ _ hop]
        have hrg : (registerOperation s op inst).2.registry =
            s.registry ++ [(inst.ty, methodsOf inst)] := by
          unfold registerOperation
          rw [if_neg h1, h2]
          simp [hty]
        have hbc : (registerOperation s op inst).2.baseClasses = s.baseClasses := by
          unfold registerOperation
          rw [if_neg h1, h2]
          simp
        have hcm : (registerOperation s op inst).2.classMethods = s.classMethods := by
          unfold registerOperation
          rw [if_neg h1, h2]
          simp
        intro ty'
        rw [hops, hrg, hbc, hcm]
        unfold buildRegistry
        rw [opsRegistry_append]
        by_cases hk : ty' = inst.ty
        · subst hk
          rw [alistLookup_append_self _ _ _ hty]
          have h0 := hs inst.ty
          rw [(hasKey_false_iff _ _).mp hty] at h0
          have hnone : alistLookup
              (addBaseClasses s.classMethods (opsRegistry s.operations) s.baseClasses)
              inst.ty = Option.none := h0.symm
          obtain ⟨hopsn, hno⟩ := addBaseClasses_none _ _ _ _ hnone
          rw [addBaseClasses_skip _ _ _ _ hno]
          rw [alistLookup_insertA_self]
        · rw [alistLookup_append_ne _ _ _ _ hk]
          rw [addBaseClasses_congr s.classMethods s.baseClasses
            (insertA (opsRegistry s.operations) inst.ty (methodsOf inst))
            (opsRegistry s.operations) ty'
            (alistLookup_insertA_ne _ _ _ _ hk)]
          exact hs ty'

theorem c6_witness :
    hasKey s0.registry instA.ty = false ∧
    hasKey s0.operations "x" = false ∧
    (registryInSync (mkManipulator Value.none [] [] false env0) ∧
     registryInSync (setManagingObject s0 (Value.obj 3 8)) ∧
     registryInSync (updateRegistry s0 [8] false) ∧
     registryInSync (registerOperation s0 "x" instA).2) :=
  ⟨by decide, by decide,
    c6_amended Value.none (Value.obj 3 8) [] [8] [] false false env0 s0 "x" instA
      (fun _ => rfl) (by decide) (by decide)⟩
